import Mathlib

/-!
Verification of the ingestion pipeline of datalad-catalog.

This file gives a shallow embedding of src/datalad_catalog/catalog.py: the
add action (schema validation of each input line, translation, orphan
linking, and the flush loop that persists every registered node), the
validate action with its schema store, and the line-count helper.

Collaborator modules of the same repository (webcatalog.py with Node and
WebCatalog, meta_item.py with MetaItem, the bundled schema templates) are
not part of the embedded sources; where the behaviour of a claim depends on
them, the corresponding definition is modelled from the spec and says so in
its doc comment. Everything else is translated from catalog.py.
-/

namespace DataladCatalog

/-- JSON values, as produced by json.loads applied to one metadata line.
Numbers are modelled as integers, which covers every value the embedded
claims touch. -/
inductive Json where
  | null : Json
  | bool (b : Bool) : Json
  | num (n : Int) : Json
  | str (s : String) : Json
  | arr (elems : List Json) : Json
  | obj (fields : List (String × Json)) : Json

mutual

/-- Decidable equality of JSON values, written by hand because the automatic
derivation does not support this nested inductive type. -/
def Json.decEq : (a b : Json) → Decidable (a = b)
  | .null, .null => isTrue rfl
  | .bool a, .bool b =>
    if h : a = b then isTrue (h ▸ rfl)
    else isFalse (fun hh => h (Json.bool.inj hh))
  | .num a, .num b =>
    if h : a = b then isTrue (h ▸ rfl)
    else isFalse (fun hh => h (Json.num.inj hh))
  | .str a, .str b =>
    if h : a = b then isTrue (h ▸ rfl)
    else isFalse (fun hh => h (Json.str.inj hh))
  | .arr xs, .arr ys =>
    match Json.decEqList xs ys with
    | isTrue h => isTrue (h ▸ rfl)
    | isFalse h => isFalse (fun hh => h (Json.arr.inj hh))
  | .obj fs, .obj gs =>
    match Json.decEqFields fs gs with
    | isTrue h => isTrue (h ▸ rfl)
    | isFalse h => isFalse (fun hh => h (Json.obj.inj hh))
  | .null, .bool _ => isFalse (fun h => Json.noConfusion h)
  | .null, .num _ => isFalse (fun h => Json.noConfusion h)
  | .null, .str _ => isFalse (fun h => Json.noConfusion h)
  | .null, .arr _ => isFalse (fun h => Json.noConfusion h)
  | .null, .obj _ => isFalse (fun h => Json.noConfusion h)
  | .bool _, .null => isFalse (fun h => Json.noConfusion h)
  | .bool _, .num _ => isFalse (fun h => Json.noConfusion h)
  | .bool _, .str _ => isFalse (fun h => Json.noConfusion h)
  | .bool _, .arr _ => isFalse (fun h => Json.noConfusion h)
  | .bool _, .obj _ => isFalse (fun h => Json.noConfusion h)
  | .num _, .null => isFalse (fun h => Json.noConfusion h)
  | .num _, .bool _ => isFalse (fun h => Json.noConfusion h)
  | .num _, .str _ => isFalse (fun h => Json.noConfusion h)
  | .num _, .arr _ => isFalse (fun h => Json.noConfusion h)
  | .num _, .obj _ => isFalse (fun h => Json.noConfusion h)
  | .str _, .null => isFalse (fun h => Json.noConfusion h)
  | .str _, .bool _ => isFalse (fun h => Json.noConfusion h)
  | .str _, .num _ => isFalse (fun h => Json.noConfusion h)
  | .str _, .arr _ => isFalse (fun h => Json.noConfusion h)
  | .str _, .obj _ => isFalse (fun h => Json.noConfusion h)
  | .arr _, .null => isFalse (fun h => Json.noConfusion h)
  | .arr _, .bool _ => isFalse (fun h => Json.noConfusion h)
  | .arr _, .num _ => isFalse (fun h => Json.noConfusion h)
  | .arr _, .str _ => isFalse (fun h => Json.noConfusion h)
  | .arr _, .obj _ => isFalse (fun h => Json.noConfusion h)
  | .obj _, .null => isFalse (fun h => Json.noConfusion h)
  | .obj _, .bool _ => isFalse (fun h => Json.noConfusion h)
  | .obj _, .num _ => isFalse (fun h => Json.noConfusion h)
  | .obj _, .str _ => isFalse (fun h => Json.noConfusion h)
  | .obj _, .arr _ => isFalse (fun h => Json.noConfusion h)

/-- Decidable equality of JSON value lists, part of the mutual definition. -/
def Json.decEqList : (xs ys : List Json) → Decidable (xs = ys)
  | [], [] => isTrue rfl
  | [], _ :: _ => isFalse (fun h => List.noConfusion h)
  | _ :: _, [] => isFalse (fun h => List.noConfusion h)
  | x :: xs, y :: ys =>
    match Json.decEq x y with
    | isFalse h => isFalse (fun hh => h (List.cons.inj hh).1)
    | isTrue h1 =>
      match Json.decEqList xs ys with
      | isTrue h2 => isTrue (h1 ▸ h2 ▸ rfl)
      | isFalse h => isFalse (fun hh => h (List.cons.inj hh).2)

/-- Decidable equality of attribute mappings, part of the mutual definition. -/
def Json.decEqFields : (fs gs : List (String × Json)) → Decidable (fs = gs)
  | [], [] => isTrue rfl
  | [], _ :: _ => isFalse (fun h => List.noConfusion h)
  | _ :: _, [] => isFalse (fun h => List.noConfusion h)
  | (k, v) :: fs, (l, w) :: gs =>
    if hk : k = l then
      match Json.decEq v w with
      | isFalse h =>
        isFalse (fun hh => h (congrArg Prod.snd (List.cons.inj hh).1))
      | isTrue hv =>
        match Json.decEqFields fs gs with
        | isTrue h2 => isTrue (hk ▸ hv ▸ h2 ▸ rfl)
        | isFalse h => isFalse (fun hh => h (List.cons.inj hh).2)
    else isFalse (fun hh => hk (congrArg Prod.fst (List.cons.inj hh).1))

end

instance : DecidableEq Json := Json.decEq

/-- Lookup of a key in an attribute mapping: Python getattr or dict access,
returning none when the attribute is absent (hasattr false). -/
def lookupField : List (String × Json) → String → Option Json
  | [], _ => none
  | (k, v) :: rest, key => if k = key then some v else lookupField rest key

/-- Python setattr or dict item assignment: replace the value in place when
the key already exists, otherwise append the new pair at the end, matching
dict insertion-order semantics. -/
def setField : List (String × Json) → String → Json → List (String × Json)
  | [], key, v => [(key, v)]
  | (k, w) :: rest, key, v =>
    if k = key then (key, v) :: rest else (k, w) :: setField rest key v

/-- The internal bookkeeping keys popped from vars(inst) before serialization
in catalog.py lines 329 to 337. -/
def keysToPop : List String :=
  ["node_path", "long_name", "md5_hash", "file_name", "parent_catalog"]

/-- Last component of a POSIX path: Path.name in Python. -/
def baseName (p : String) : String := (p.splitOn "/").getLastD ""

/-- An in-memory node of the run registry (Node._instances in the source):
vars(inst) as an attribute mapping, together with the storage location. The
location models inst.get_location() from webcatalog.py, which is not under
src. Modelled from the spec: the storage path is derived deterministically
from the node identity key, so it is carried as a per-node field. -/
structure Node where
  loc : String
  fields : List (String × Json)
  deriving DecidableEq

/-- Preparation of vars(inst) before serialization, catalog.py lines 323 to
337: when node_path is set and the type is not dataset, set path to the
string of node_path; when node_path is set and the type is directory, set
name to the last path component; then pop the internal bookkeeping keys.
The node_path attribute is a pathlib Path in the source, modelled here by
its string form. -/
def prepFields (fs : List (String × Json)) : List (String × Json) :=
  let fs1 :=
    match lookupField fs "node_path" with
    | some (Json.str p) =>
      let a :=
        if lookupField fs "type" ≠ some (Json.str "dataset") then
          setField fs "path" (Json.str p)
        else fs
      if lookupField fs "type" = some (Json.str "directory") then
        setField a "name" (Json.str (baseName p))
      else a
    | _ => fs
  fs1.filter (fun kv => !(decide (kv.1 ∈ keysToPop)))

/-- The metadata file store of the catalog: a map from storage location to
the persisted JSON document. Byte identity of persisted files corresponds to
equality of the dumped values, because json.dump is deterministic. -/
def Disk : Type := String → Option Json

/-- A store with no persisted documents, the state of a freshly created
catalog metadata directory. -/
def emptyDisk : Disk := fun _ => none

/-- One flush of a node, catalog.py lines 317 to 347. Both branches of the
source (fresh write for a new file, and the seek-truncate rewrite of an
existing file) leave the file holding exactly the stripped serialization of
the in-memory node; the prior document is never opened for reading. -/
def writeNode (d : Disk) (n : Node) : Disk :=
  fun loc => if loc = n.loc then some (Json.obj (prepFields n.fields)) else d loc

/-- The flush loop over all registered nodes, catalog.py lines 317 to 347.
An OSError while opening or writing one file propagates out of the loop
(there is no try/except around the writes), so a failing location aborts the
loop, keeping only the writes made before it and reporting that location. -/
def flushRun (fail : String → Bool) : Disk → List Node → Disk × Option String
  | d, [] => (d, none)
  | d, n :: rest =>
    if fail n.loc then (d, some n.loc) else flushRun fail (writeNode d n) rest

/-- Python truthiness of a JSON value, used by the orphan test
`not inst.parent_catalog`. -/
def pyTruthy : Json → Bool
  | Json.null => false
  | Json.bool b => b
  | Json.num n => decide (n ≠ 0)
  | Json.str s => decide (s ≠ "")
  | Json.arr xs => decide (xs ≠ [])
  | Json.obj fs => decide (fs ≠ [])

/-- Orphan test of catalog.py lines 307 to 312: the parent_catalog attribute
is missing, or its value is falsy. -/
def isOrphan (n : Node) : Bool :=
  match lookupField n.fields "parent_catalog" with
  | none => true
  | some v => !pyTruthy v

/-- Orphan linking, catalog.py lines 307 to 314: a single pass over all
registered nodes that assigns the active catalog as parent_catalog of every
orphan and leaves every other node untouched. The catalog object is
modelled as an abstract JSON value. -/
def linkOrphans (cat : Json) (nodes : List Node) : List Node :=
  nodes.map fun n =>
    if isOrphan n then { n with fields := setField n.fields "parent_catalog" cat } else n

/-- Test used at catalog.py line 291: is the parsed line a dict. -/
def isDict : Json → Bool
  | Json.obj _ => true
  | _ => false

/-- Observable outcome of the per-line loop of the add action:
the values passed to catalog.VALIDATOR.validate in order, the values passed
on to MetaItem translation, the 1-based numbers of the lines warned about as
non-dict, and the first fatal schema violation with its 1-based line number,
if any. -/
structure LineOutcome where
  validatedVals : List Json
  translatedVals : List Json
  warnedLines : List Nat
  fatal : Option (Nat × Json)
  deriving DecidableEq

/-- The per-line loop of the add action, catalog.py lines 283 to 302,
starting at line number i. Each line is parsed, warned about when it is not
a dict (the raise is commented out in the source, so the value still flows
on), then passed to the schema validator; the first validation failure
raises with the current 1-based line number, otherwise the value is handed
to MetaItem translation and the loop continues. -/
def processFrom (validate : Json → Bool) : Nat → List Json → LineOutcome
  | _, [] => ⟨[], [], [], none⟩
  | i, v :: rest =>
    let warns := if isDict v then [] else [i]
    if validate v then
      let r := processFrom validate (i + 1) rest
      ⟨v :: r.validatedVals, v :: r.translatedVals, warns ++ r.warnedLines, r.fatal⟩
    else
      ⟨[v], [], warns, some (i, v)⟩

/-- The per-line loop started at line number 1, as in the source where the
counter i is initialized to 0 and incremented before each line is handled. -/
def processLines (validate : Json → Bool) (lines : List Json) : LineOutcome :=
  processFrom validate 1 lines

/-- Errors that can end the add action: a schema violation carrying the
1-based line number and the offending value, or an OSError from the flush
loop carrying the failing storage location. -/
inductive AddError where
  | schemaViolation (line : Nat) (offending : Json) : AddError
  | flushIOError (loc : String) : AddError
  deriving DecidableEq

/-- Result of one add run: the resulting metadata store, the error that
ended the run if any, and whether the final ok status record was yielded. -/
structure AddOutcome where
  disk : Disk
  err : Option AddError
  okStatus : Bool

/-- The registry contents flushed by an add run: the translation of the
values that passed validation, after orphan linking. The translation map
(MetaItem and Node construction, meta_item.py and webcatalog.py, not under
src) is a parameter. Modelled from the spec: translation is a pure
in-memory function of the validated record stream that creates and updates
registry nodes and performs no disk access. -/
def runNodes (validate : Json → Bool) (translate : List Json → List Node)
    (cat : Json) (lines : List Json) : List Node :=
  linkOrphans cat (translate (processLines validate lines).translatedVals)

/-- The add action over already-parsed input lines, catalog.py lines 283 to
352: run the per-line loop; a schema violation aborts the run before any
flush, leaving the store untouched; otherwise link orphans and flush every
registered node, where an OSError aborts the flush loop and prevents the
final ok status from being yielded. -/
def addToCatalog (validate : Json → Bool) (translate : List Json → List Node)
    (cat : Json) (fail : String → Bool) (d : Disk) (lines : List Json) : AddOutcome :=
  let r := processLines validate lines
  match r.fatal with
  | some (i, v) => ⟨d, some (AddError.schemaViolation i v), false⟩
  | none =>
    let out := flushRun fail d (runNodes validate translate cat lines)
    match out.2 with
    | some loc => ⟨out.1, some (AddError.flushIOError loc), false⟩
    | none => ⟨out.1, none, true⟩

/-- The line-count helper of catalog.py lines 519 to 523: enumerate the
lines, keeping the loop variable, and return the last index plus one. The
loop variable is never bound for an empty file, so the source raises a
NameError there, modelled by the none result. -/
def getLineCount (lines : List α) : Option Nat :=
  match lines.foldl (fun acc _ => some (acc.elim 0 (· + 1))) (none : Option Nat) with
  | none => none
  | some i => some (i + 1)

/-- The five bundled schema names of catalog.py line 468. -/
def schemaNames : List String :=
  ["catalog", "dataset", "file", "authors", "extractors"]

/-- The identifier of the root catalog schema, catalog.py line 476. -/
def catalogSchemaId : String := "https://datalad.org/catalog.schema.json"

/-- Construction of the identifier-indexed schema store, catalog.py lines
469 to 473: each named schema document is read and stored under its dollar-id
field. The bundled template files are repository code not under src; the
document contents are therefore a parameter. A document that is not an
object with a string identifier makes the store build fail, as the source
raises on the missing dictionary key. -/
def buildStoreFrom (docs : String → Json) :
    List String → List (String × Json) → Option (List (String × Json))
  | [], st => some st
  | s :: rest, st =>
    match docs s with
    | Json.obj fs =>
      match lookupField fs "$id" with
      | some (Json.str sid) => buildStoreFrom docs rest (setField st sid (Json.obj fs))
      | _ => none
    | _ => none

/-- The schema store built over the five bundled schema names. -/
def buildStore (docs : String → Json) : Option (List (String × Json)) :=
  buildStoreFrom docs schemaNames []

/-- Errors that can end the validate action, in the order the source can
raise them: missing metadata argument, a failure while building the schema
store or fetching the catalog schema from it, the NameError of the
line-count helper on an empty file, and a per-line schema violation
carrying the 1-based line number, the total line count and the offending
value. -/
inductive ValidateError where
  | noMetadata : ValidateError
  | schemaStoreError : ValidateError
  | missingCatalogSchema : ValidateError
  | emptyFileCrash : ValidateError
  | lineViolation (line : Nat) (total : Nat) (offending : Json) : ValidateError
  deriving DecidableEq

/-- The per-line validation loop of catalog.py lines 481 to 508, starting at
line number i. A non-dict line is warned about but still validated, exactly
as in the add action; the first schema violation raises with the current
1-based line number and the total line count. -/
def validateLoop (check : Json → Bool) (total : Nat) :
    Nat → List Json → Except ValidateError Unit
  | _, [] => Except.ok ()
  | i, v :: rest =>
    if check v then validateLoop check total (i + 1) rest
    else Except.error (ValidateError.lineViolation i total v)

/-- The validate action over already-parsed input lines, catalog.py lines
451 to 516: check metadata was supplied, build the identifier-indexed schema
store, fetch the catalog schema by its identifier, count the lines of the
file, then validate line by line. The jsonschema validator with its
reference resolver over the store is a parameter taking the catalog schema
and the value under validation. -/
def validateMetadata (docs : String → Json) (checkWith : Json → Json → Bool)
    (metadata : Option (List Json)) : Except ValidateError Unit :=
  match metadata with
  | none => Except.error ValidateError.noMetadata
  | some lines =>
    match buildStore docs with
    | none => Except.error ValidateError.schemaStoreError
    | some store =>
      match lookupField store catalogSchemaId with
      | none => Except.error ValidateError.missingCatalogSchema
      | some cs =>
        match getLineCount lines with
        | none => Except.error ValidateError.emptyFileCrash
        | some total => validateLoop (checkWith cs) total 1 lines

/-- The subcommand selector of the Catalog interface. -/
inductive CatalogAction where
  | create : CatalogAction
  | add : CatalogAction
  | remove : CatalogAction
  | serve : CatalogAction
  | setSuper : CatalogAction
  | validate : CatalogAction
  deriving DecidableEq

/-- Answers of the WebCatalog existence probes path_exists and is_created
for a given catalog directory. WebCatalog lives in webcatalog.py, not under
src. Modelled from the spec: the collaborator exposes an exists check and an
is-initialized check, consulted by the dispatch code of catalog.py lines
183 to 202. -/
structure CatalogEnv where
  pathExists : Bool
  isCreated : Bool

/-- Errors raised by the dispatch code of Catalog, catalog.py lines 162 to
215: a validation error forwarded from the validate action, a missing
catalog directory argument, a non-catalog directory in the way, a missing
catalog for a non-create action, and an existing catalog for create without
force. -/
inductive CallError where
  | validationError (e : ValidateError) : CallError
  | noCatalogDir : CallError
  | nonCatalogDirExists : CallError
  | catalogMissing : CallError
  | catalogExistsNoForce : CallError
  deriving DecidableEq

/-- Result of the dispatch: the validate action completed, or the named
action function was invoked on the instantiated catalog. -/
inductive CallResult where
  | validated : CallResult
  | dispatched (action : CatalogAction) : CallResult
  deriving DecidableEq

/-- The dispatch of Catalog, catalog.py lines 162 to 215: the validate
action runs first, before the catalog directory argument is inspected and
before any WebCatalog existence probe; every other action requires the
directory argument, rejects a non-catalog directory, requires an existing
catalog unless creating, and rejects re-creation without force. -/
def catalogCall (docs : String → Json) (checkWith : Json → Json → Bool)
    (action : CatalogAction) (catalogDir : Option String)
    (env : String → CatalogEnv) (metadata : Option (List Json))
    (force : Bool) : Except CallError CallResult :=
  if action = CatalogAction.validate then
    match validateMetadata docs checkWith metadata with
    | Except.error e => Except.error (CallError.validationError e)
    | Except.ok _ => Except.ok CallResult.validated
  else
    match catalogDir with
    | none => Except.error CallError.noCatalogDir
    | some dir =>
      let c := env dir
      if c.pathExists && !c.isCreated then
        Except.error CallError.nonCatalogDirExists
      else if !c.isCreated && decide (action ≠ CatalogAction.create) then
        Except.error CallError.catalogMissing
      else if c.isCreated && action = CatalogAction.create && !force then
        Except.error CallError.catalogExistsNoForce
      else
        Except.ok (CallResult.dispatched action)

/-- Absence of duplicate entries in the children list of a document;
documents without a children list hold the property vacuously. -/
def childrenDedup : Json → Bool
  | Json.obj fs =>
    match lookupField fs "children" with
    | some (Json.arr cs) => decide cs.Nodup
    | _ => true
  | _ => true

/-! Helper lemmas about attribute lookups. -/

theorem lookupField_setField_self (fs : List (String × Json)) (key : String) (v : Json) :
    lookupField (setField fs key v) key = some v := by
  induction fs with
  | nil => simp [setField, lookupField]
  | cons kv rest ih =>
    obtain ⟨k, w⟩ := kv
    by_cases hk : k = key <;> simp [setField, hk, lookupField, ih]

theorem lookupField_setField_ne (fs : List (String × Json)) (key key2 : String)
    (v : Json) (h : key2 ≠ key) :
    lookupField (setField fs key v) key2 = lookupField fs key2 := by
  induction fs with
  | nil => simp [setField, lookupField, Ne.symm h]
  | cons kv rest ih =>
    obtain ⟨k, w⟩ := kv
    by_cases hk : k = key
    · subst hk
      simp [setField, lookupField, Ne.symm h]
    · by_cases hk2 : k = key2 <;> simp [setField, hk, lookupField, hk2, ih, h]

theorem lookupField_filter_pop (fs : List (String × Json)) (key : String)
    (h : key ∈ keysToPop) :
    lookupField (fs.filter (fun kv => !(decide (kv.1 ∈ keysToPop)))) key = none := by
  induction fs with
  | nil => rfl
  | cons kv rest ih =>
    obtain ⟨k, w⟩ := kv
    by_cases hc : k ∈ keysToPop
    · simp [List.filter_cons, hc, ih]
    · have hk : k ≠ key := fun he => hc (he ▸ h)
      simp [List.filter_cons, hc, lookupField, hk, ih]

theorem lookupField_filter_keep (fs : List (String × Json)) (key : String)
    (h : key ∉ keysToPop) :
    lookupField (fs.filter (fun kv => !(decide (kv.1 ∈ keysToPop)))) key
      = lookupField fs key := by
  induction fs with
  | nil => rfl
  | cons kv rest ih =>
    obtain ⟨k, w⟩ := kv
    by_cases hk : k = key
    · subst hk
      simp [List.filter_cons, h, lookupField, ih]
    · by_cases hc : k ∈ keysToPop <;>
        simp [List.filter_cons, hc, lookupField, hk, ih]

/-! Claim C1: merge behaviour of the end-of-run flush. -/

/-- Store holding one persisted node document with only a description
field, the prior state of the merge example of the claim. -/
def c1Prior : Disk := fun loc =>
  if loc = "node1" then some (Json.obj [("description", Json.str "x")]) else none

/-- In-memory node for the same identity key with only a size field set. -/
def c1Node : Node := ⟨"node1", [("size", Json.num 10)]⟩

/-- C1 counterexample: flushing a node that sets only size over a persisted
document holding description yields a document with only size; the prior
description field is not retained, so the claimed field-level merge does not
happen. -/
theorem c1_flush_merge_counterexample :
    writeNode c1Prior c1Node "node1" = some (Json.obj [("size", Json.num 10)]) ∧
    lookupField [("size", Json.num 10)] "description" = none := by
  constructor
  · decide
  · decide

/-- C1 amended: when a node is flushed, the file at its location afterwards
holds exactly the stripped serialization of the in-memory node; the prior
persisted document is never read, so the result is the same whatever
document was stored there before, and fields present only in the prior
document are lost. The file is rewritten in place (truncate-and-rewrite). -/
theorem c1_flush_overwrites (d : Disk) (n : Node) (prior : Json) :
    writeNode d n n.loc = some (Json.obj (prepFields n.fields)) ∧
    writeNode (fun loc => if loc = n.loc then some prior else d loc) n n.loc
      = writeNode d n n.loc := by
  refine ⟨?_, ?_⟩ <;> simp [writeNode]

/-! Claim C9: internal bookkeeping fields are stripped before persistence. -/

/-- C9: the document written to disk for every flushed node is the prepared
serialization of the node, and that serialization contains none of the five
internal bookkeeping keys node_path, long_name, md5_hash, file_name and
parent_catalog. -/
theorem c9_internal_keys_stripped (d : Disk) (n : Node) :
    writeNode d n n.loc = some (Json.obj (prepFields n.fields)) ∧
    lookupField (prepFields n.fields) "node_path" = none ∧
    lookupField (prepFields n.fields) "long_name" = none ∧
    lookupField (prepFields n.fields) "md5_hash" = none ∧
    lookupField (prepFields n.fields) "file_name" = none ∧
    lookupField (prepFields n.fields) "parent_catalog" = none := by
  refine ⟨by simp [writeNode], ?_, ?_, ?_, ?_, ?_⟩ <;>
  · simp only [prepFields]
    exact lookupField_filter_pop _ _ (by decide)

/-! Claim C3: handling of input lines that are not JSON objects. -/

/-- A validator that accepts every value, used to instantiate the abstract
catalog schema validator on concrete runs. -/
def acceptAll : Json → Bool := fun _ => true

/-- C3 counterexample: a line holding a JSON array (not an object) is warned
about, yet the value is still passed to the schema validator and then to
translation, so the line is not skipped as the claim states. -/
theorem c3_skip_counterexample :
    (processLines acceptAll [Json.arr []]).validatedVals = [Json.arr []] ∧
    (processLines acceptAll [Json.arr []]).translatedVals = [Json.arr []] ∧
    (processLines acceptAll [Json.arr []]).warnedLines = [1] := by
  exact ⟨rfl, rfl, rfl⟩

/-- C3 amended: a non-object line is logged as a warning but is not skipped:
it is still passed to schema validation and, when the validator accepts it,
to translation, after which processing continues with the remaining lines;
when the validator rejects it, the run aborts at that line like any other
schema violation. -/
theorem c3_warn_not_skip (validate : Json → Bool) (v : Json) (rest : List Json)
    (hv : isDict v = false) :
    (processLines validate (v :: rest)).warnedLines.head? = some 1 ∧
    (processLines validate (v :: rest)).validatedVals.head? = some v ∧
    (processLines validate (v :: rest)).translatedVals
      = (if validate v then v :: (processFrom validate 2 rest).translatedVals else []) ∧
    (processLines validate (v :: rest)).fatal
      = (if validate v then (processFrom validate 2 rest).fatal else some (1, v)) := by
  by_cases h : validate v = true <;>
    simp [processLines, processFrom, hv, h]

/-- C3 amended, witnessed at a concrete non-object line. -/
theorem c3_warn_not_skip_witness :
    isDict (Json.arr []) = false ∧
    ((processLines acceptAll (Json.arr [] :: [])).warnedLines.head? = some 1 ∧
     (processLines acceptAll (Json.arr [] :: [])).validatedVals.head? = some (Json.arr []) ∧
     (processLines acceptAll (Json.arr [] :: [])).translatedVals
       = (if acceptAll (Json.arr []) then
            Json.arr [] :: (processFrom acceptAll 2 []).translatedVals else []) ∧
     (processLines acceptAll (Json.arr [] :: [])).fatal
       = (if acceptAll (Json.arr []) then
            (processFrom acceptAll 2 []).fatal else some (1, Json.arr []))) :=
  ⟨rfl, c3_warn_not_skip acceptAll (Json.arr []) [] rfl⟩

/-! Claim C7: the two input modes of the add action. -/

/-- First element of the array input used in the C7 counterexample. -/
def c7Elem1 : Json := Json.obj [("a", Json.num 1)]

/-- Second element of the array input used in the C7 counterexample. -/
def c7Elem2 : Json := Json.obj [("a", Json.num 2)]

/-- C7 counterexample: a file whose single line is a JSON array of two
objects produces one record (the array itself, warned about as a non-object)
rather than two, so the array is not normalized into the same record stream
as the equivalent JSON-lines file. -/
theorem c7_array_not_split_counterexample :
    (processLines acceptAll [Json.arr [c7Elem1, c7Elem2]]).translatedVals.length = 1 ∧
    (processLines acceptAll [c7Elem1, c7Elem2]).translatedVals.length = 2 ∧
    (processLines acceptAll [Json.arr [c7Elem1, c7Elem2]]).translatedVals
      ≠ (processLines acceptAll [c7Elem1, c7Elem2]).translatedVals ∧
    (processLines acceptAll [Json.arr [c7Elem1, c7Elem2]]).warnedLines = [1] := by
  refine ⟨rfl, rfl, ?_, rfl⟩
  decide

/-- C7 amended: the add action consumes its input strictly line by line,
each line parsed as one record; a file holding a single JSON array yields
exactly one record, the array value itself, which is warned about as a
non-object, and its elements are not treated as individual records. -/
theorem c7_single_line_array (validate : Json → Bool) (xs : List Json) :
    (processLines validate [Json.arr xs]).validatedVals = [Json.arr xs] ∧
    (processLines validate [Json.arr xs]).warnedLines = [1] ∧
    (processLines validate [Json.arr xs]).translatedVals
      = (if validate (Json.arr xs) then [Json.arr xs] else []) := by
  by_cases h : validate (Json.arr xs) = true <;>
    simp [processLines, processFrom, isDict, h]

/-! Claim C4: orphan linking after all lines are consumed. -/

/-- C4: orphan linking maps each registered node to itself when it already
has a truthy parent-catalog assignment, and otherwise to the same node with
the active catalog assigned as parent_catalog, in one pass over the
registry. -/
theorem c4_orphans_linked (cat : Json) (nodes : List Node) :
    List.Forall₂ (fun n m =>
      (isOrphan n = true →
        m.loc = n.loc ∧
        m.fields = setField n.fields "parent_catalog" cat ∧
        lookupField m.fields "parent_catalog" = some cat) ∧
      (isOrphan n = false → m = n))
      nodes (linkOrphans cat nodes) := by
  induction nodes with
  | nil => simp [linkOrphans]
  | cons n rest ih =>
    simp only [linkOrphans, List.map_cons]
    refine List.Forall₂.cons ⟨?_, ?_⟩ (by simpa [linkOrphans] using ih)
    · intro ho
      simp [ho, lookupField_setField_self]
    · intro ho
      simp [ho]

/-- C4, witnessed on a registry holding one orphan (no parent_catalog
attribute) and one node with a parent already assigned. -/
theorem c4_orphans_linked_witness :
    List.Forall₂ (fun n m =>
      (isOrphan n = true →
        m.loc = n.loc ∧
        m.fields = setField n.fields "parent_catalog" (Json.str "cat") ∧
        lookupField m.fields "parent_catalog" = some (Json.str "cat")) ∧
      (isOrphan n = false → m = n))
      [⟨"a", []⟩, ⟨"b", [("parent_catalog", Json.str "c")]⟩]
      (linkOrphans (Json.str "cat")
        [⟨"a", []⟩, ⟨"b", [("parent_catalog", Json.str "c")]⟩]) :=
  c4_orphans_linked (Json.str "cat")
    [⟨"a", []⟩, ⟨"b", [("parent_catalog", Json.str "c")]⟩]

/-! Claim C2: a schema violation aborts the run before any flush. -/

/-- Position of the first validation failure in the per-line loop: when all
lines before it pass validation and line v fails, the loop stops at v with
the 1-based number of that line, and only the earlier lines have been handed
to translation. -/
theorem processFrom_fatal (validate : Json → Bool) (i : Nat)
    (pre : List Json) (v : Json) (post : List Json)
    (hpre : ∀ u ∈ pre, validate u = true) (hv : validate v = false) :
    (processFrom validate i (pre ++ v :: post)).fatal = some (i + pre.length, v) ∧
    (processFrom validate i (pre ++ v :: post)).translatedVals = pre := by
  induction pre generalizing i with
  | nil => simp [processFrom, hv]
  | cons u rest ih =>
    have hu : validate u = true := hpre u (List.mem_cons_self u rest)
    have ihh := ih (i + 1) (fun x hx => hpre x (List.mem_cons_of_mem u hx))
    refine ⟨?_, ?_⟩
    · simp only [List.cons_append, processFrom, hu, if_true, List.append_eq]
      rw [ihh.1]
      simp only [List.length_cons]
      congr 2
      omega
    · simp only [List.cons_append, processFrom, hu, if_true, List.append_eq]
      rw [ihh.2]

/-- C2: when line i of the input is the first to fail schema validation, the
add action stops with a schema-violation error carrying the 1-based line
number and the offending value, the metadata store is exactly the store the
run started with (no node from any line has been flushed), and the ok status
is never yielded. Translation is modelled from the spec as a pure in-memory
function, so flushing happens only in the flush loop after all lines. -/
theorem c2_abort_before_flush (validate : Json → Bool)
    (translate : List Json → List Node) (cat : Json) (fail : String → Bool)
    (d : Disk) (pre : List Json) (v : Json) (post : List Json)
    (hpre : ∀ u ∈ pre, validate u = true) (hv : validate v = false) :
    addToCatalog validate translate cat fail d (pre ++ v :: post)
      = ⟨d, some (AddError.schemaViolation (pre.length + 1) v), false⟩ := by
  have hf : (processLines validate (pre ++ v :: post)).fatal
      = some (1 + pre.length, v) :=
    (processFrom_fatal validate 1 pre v post hpre hv).1
  simp only [addToCatalog, hf, Nat.add_comm 1 pre.length]

/-- C2, witnessed on a two-line input whose second line is not an object and
is rejected by a validator accepting exactly objects: the run aborts with
line number 2 and the store stays empty. -/
theorem c2_abort_before_flush_witness :
    (∀ u ∈ ([Json.obj []] : List Json), isDict u = true) ∧
    isDict Json.null = false ∧
    addToCatalog isDict (fun _ => []) Json.null (fun _ => false) emptyDisk
        ([Json.obj []] ++ Json.null :: [])
      = ⟨emptyDisk, some (AddError.schemaViolation 2 Json.null), false⟩ :=
  ⟨by decide, by decide,
   c2_abort_before_flush isDict (fun _ => []) Json.null (fun _ => false)
     emptyDisk [Json.obj []] Json.null [] (by decide) (by decide)⟩

/-! Claim C5: behaviour of the flush loop on an I/O error. -/

/-- Failure pattern making the write at location locA raise an OSError. -/
def c5Fail : String → Bool := fun loc => loc == "locA"

/-- First node of the C5 registry, stored at the failing location. -/
def c5NodeA : Node := ⟨"locA", [("k", Json.num 1)]⟩

/-- Second node of the C5 registry, stored at a healthy location. -/
def c5NodeB : Node := ⟨"locB", [("k", Json.num 2)]⟩

/-- C5 counterexample: when flushing the first node raises an I/O error, the
second node is never written (its location stays empty), the loop stops
reporting only the failing location, and the run never reaches its ok
terminal state, contradicting the claimed per-node isolation. -/
theorem c5_flush_error_counterexample :
    (flushRun c5Fail emptyDisk [c5NodeA, c5NodeB]).1 "locB" = none ∧
    (flushRun c5Fail emptyDisk [c5NodeA, c5NodeB]).2 = some "locA" ∧
    (addToCatalog acceptAll (fun _ => [c5NodeA, c5NodeB]) Json.null c5Fail
        emptyDisk [Json.obj []]).okStatus = false ∧
    (addToCatalog acceptAll (fun _ => [c5NodeA, c5NodeB]) Json.null c5Fail
        emptyDisk [Json.obj []]).disk "locB" = none := by
  refine ⟨by decide, by decide, by decide, by decide⟩

/-- C5 amended: an I/O error while flushing one node propagates out of the
flush loop: nodes before the failing one stay written, the failing node and
every node after it are not flushed, the only failure information is the
exception for the single failing location (no per-node collection or report
of failed identity keys), and the run does not reach its ok terminal
state. -/
theorem c5_flush_error_aborts (fail : String → Bool) (d : Disk)
    (pre : List Node) (n : Node) (post : List Node)
    (hpre : ∀ m ∈ pre, fail m.loc = false) (hn : fail n.loc = true) :
    flushRun fail d (pre ++ n :: post) = (pre.foldl writeNode d, some n.loc) := by
  induction pre generalizing d with
  | nil => simp [flushRun, hn]
  | cons m rest ih =>
    have hm : fail m.loc = false := hpre m (List.mem_cons_self m rest)
    have ihh := ih (writeNode d m) (fun x hx => hpre x (List.mem_cons_of_mem m hx))
    simp [flushRun, hm, ihh]

/-- C5 amended, witnessed on a registry of two nodes whose first write
raises. -/
theorem c5_flush_error_aborts_witness :
    (∀ m ∈ ([] : List Node), c5Fail m.loc = false) ∧
    c5Fail c5NodeA.loc = true ∧
    flushRun c5Fail emptyDisk ([] ++ c5NodeA :: [c5NodeB])
      = (([] : List Node).foldl writeNode emptyDisk, some c5NodeA.loc) :=
  ⟨by simp, by decide,
   c5_flush_error_aborts c5Fail emptyDisk [] c5NodeA [c5NodeB]
     (by simp) (by decide)⟩

/-! Claim C10: the line-count helper. -/

/-- Value of the enumeration fold of the line-count helper once the loop
variable has been bound. -/
theorem getLineCount_aux (l : List α) (k : Nat) :
    l.foldl (fun acc _ => some (acc.elim 0 (· + 1))) (some k) = some (k + l.length) := by
  induction l generalizing k with
  | nil => simp
  | cons x xs ih =>
    simp only [List.foldl_cons]
    show xs.foldl _ (some (k + 1)) = _
    rw [ih]
    simp only [List.length_cons]
    congr 1
    omega

/-- C10: on a non-empty file the line-count helper returns the exact number
of lines; on an empty file the loop variable is never bound, the helper
raises instead of returning zero, and the validate action consequently fails
with that exception before any per-line validation is attempted (its result
on empty input does not depend on the validator at all). -/
theorem c10_line_count (lines : List Json) (hne : lines ≠ []) :
    getLineCount lines = some lines.length ∧
    getLineCount ([] : List Json) = none ∧
    (∀ (docs : String → Json) (cw cw2 : Json → Json → Bool),
      validateMetadata docs cw (some []) = validateMetadata docs cw2 (some [])) ∧
    (∀ (docs : String → Json) (cw : Json → Json → Bool)
        (store : List (String × Json)) (cs : Json),
      buildStore docs = some store →
      lookupField store catalogSchemaId = some cs →
      validateMetadata docs cw (some []) = Except.error ValidateError.emptyFileCrash) := by
  refine ⟨?_, rfl, ?_, ?_⟩
  · cases lines with
    | nil => exact absurd rfl hne
    | cons x xs =>
      unfold getLineCount
      simp only [List.foldl_cons]
      show (match xs.foldl _ (some 0) with
            | none => none
            | some i => some (i + 1)) = _
      rw [getLineCount_aux]
      simp
  · intro docs cw cw2
    unfold validateMetadata
    cases hbs : buildStore docs with
    | none => rfl
    | some store =>
      cases hcs : lookupField store catalogSchemaId with
      | none => rfl
      | some cs => rfl
  · intro docs cw store cs hbs hcs
    simp only [validateMetadata, hbs, hcs]
    rfl

/-- C10, witnessed on a one-line file. -/
theorem c10_line_count_witness :
    ([Json.null] : List Json) ≠ [] ∧
    (getLineCount [Json.null] = some ([Json.null] : List Json).length ∧
     getLineCount ([] : List Json) = none ∧
     (∀ (docs : String → Json) (cw cw2 : Json → Json → Bool),
       validateMetadata docs cw (some []) = validateMetadata docs cw2 (some [])) ∧
     (∀ (docs : String → Json) (cw : Json → Json → Bool)
         (store : List (String × Json)) (cs : Json),
       buildStore docs = some store →
       lookupField store catalogSchemaId = some cs →
       validateMetadata docs cw (some []) = Except.error ValidateError.emptyFileCrash)) :=
  ⟨by decide, c10_line_count [Json.null] (by decide)⟩

/-! Claim C8: the validate action. -/

/-- Position of the first failure in the per-line validation loop of the
validate action: when every line before v passes and v fails, the loop
raises at v with its 1-based line number. -/
theorem validateLoop_fatal (check : Json → Bool) (total i : Nat)
    (pre : List Json) (v : Json) (post : List Json)
    (hpre : ∀ u ∈ pre, check u = true) (hv : check v = false) :
    validateLoop check total i (pre ++ v :: post)
      = Except.error (ValidateError.lineViolation (i + pre.length) total v) := by
  induction pre generalizing i with
  | nil => simp [validateLoop, hv]
  | cons u rest ih =>
    have hu : check u = true := hpre u (List.mem_cons_self u rest)
    have ihh := ih (i + 1) (fun x hx => hpre x (List.mem_cons_of_mem u hx))
    simp only [List.cons_append, validateLoop, hu, if_true, List.append_eq, ihh,
      List.length_cons]
    congr 2
    omega

/-- C8: the validate action runs without any catalog: its result is the same
whatever catalog directory argument (including none) and whatever
existence-probe answers are supplied, so no catalog is required and no
existence check influences it; and with the identifier-indexed store built
from the five bundled schema documents and the catalog schema fetched from
it by its identifier, the first line failing validation makes the action
raise an error carrying the 1-based number of that line. -/
theorem c8_validate_action (docs : String → Json) (cw : Json → Json → Bool)
    (cd cd2 : Option String) (env env2 : String → CatalogEnv)
    (md : Option (List Json)) (force force2 : Bool)
    (store : List (String × Json)) (cs : Json)
    (hstore : buildStore docs = some store)
    (hcs : lookupField store catalogSchemaId = some cs) :
    (catalogCall docs cw CatalogAction.validate cd env md force
       = catalogCall docs cw CatalogAction.validate cd2 env2 md force2) ∧
    (∀ pre v post, (∀ u ∈ pre, cw cs u = true) → cw cs v = false →
       catalogCall docs cw CatalogAction.validate cd env
           (some (pre ++ v :: post)) force
         = Except.error (CallError.validationError
             (ValidateError.lineViolation (pre.length + 1)
               (pre ++ v :: post).length v))) := by
  constructor
  · rfl
  · intro pre v post hpre hv
    have hne : pre ++ v :: post ≠ [] := by
      intro h
      exact List.cons_ne_nil v post (List.append_eq_nil.mp h).2
    have hcount : getLineCount (pre ++ v :: post) = some (pre ++ v :: post).length := by
      cases hl : pre ++ v :: post with
      | nil => exact absurd hl hne
      | cons x xs =>
        unfold getLineCount
        simp only [List.foldl_cons]
        show (match xs.foldl _ (some 0) with
              | none => none
              | some i => some (i + 1)) = _
        rw [getLineCount_aux]
        simp
    have hloop := validateLoop_fatal (cw cs) (pre ++ v :: post).length 1 pre v post hpre hv
    simp only [catalogCall, if_true, validateMetadata, hstore, hcs, hcount, hloop,
      Nat.add_comm 1 pre.length]

/-- Concrete bundled schema documents for the C8 witness: five objects, each
carrying a string identifier, the catalog one carrying the catalog schema
identifier. -/
def c8Docs : String → Json := fun s =>
  if s = "catalog" then Json.obj [("$id", Json.str catalogSchemaId)]
  else Json.obj [("$id", Json.str s)]

/-- The identifier-indexed store that buildStore produces from c8Docs. -/
def c8Store : List (String × Json) :=
  [(catalogSchemaId, Json.obj [("$id", Json.str catalogSchemaId)]),
   ("dataset", Json.obj [("$id", Json.str "dataset")]),
   ("file", Json.obj [("$id", Json.str "file")]),
   ("authors", Json.obj [("$id", Json.str "authors")]),
   ("extractors", Json.obj [("$id", Json.str "extractors")])]

/-- The catalog schema document of the C8 witness. -/
def c8CatalogSchema : Json := Json.obj [("$id", Json.str catalogSchemaId)]

/-- A concrete validator for the C8 witness, accepting exactly objects. -/
def c8Check : Json → Json → Bool := fun _ v => isDict v

/-- Existence-probe answers reporting no catalog anywhere. -/
def c8EnvNone : String → CatalogEnv := fun _ => ⟨false, false⟩

/-- Existence-probe answers reporting a created catalog everywhere. -/
def c8EnvAll : String → CatalogEnv := fun _ => ⟨true, true⟩

/-- C8, witnessed with concrete schema documents and a two-line input whose
second line fails validation: no catalog directory and contradictory
existence probes give the same result, and the error reports line 2. -/
theorem c8_validate_action_witness :
    buildStore c8Docs = some c8Store ∧
    lookupField c8Store catalogSchemaId = some c8CatalogSchema ∧
    (∀ u ∈ ([Json.obj []] : List Json), c8Check c8CatalogSchema u = true) ∧
    c8Check c8CatalogSchema Json.null = false ∧
    (catalogCall c8Docs c8Check CatalogAction.validate none c8EnvNone
        (some [Json.obj []]) false
      = catalogCall c8Docs c8Check CatalogAction.validate (some "dir") c8EnvAll
        (some [Json.obj []]) true) ∧
    catalogCall c8Docs c8Check CatalogAction.validate none c8EnvNone
        (some ([Json.obj []] ++ Json.null :: [])) false
      = Except.error (CallError.validationError
          (ValidateError.lineViolation 2 2 Json.null)) :=
  ⟨by decide, by decide, by decide, by decide,
   (c8_validate_action c8Docs c8Check none (some "dir") c8EnvNone c8EnvAll
      (some [Json.obj []]) false true c8Store c8CatalogSchema
      (by decide) (by decide)).1,
   (c8_validate_action c8Docs c8Check none none c8EnvNone c8EnvNone
      (some [Json.obj []]) false false c8Store c8CatalogSchema
      (by decide) (by decide)).2 [Json.obj []] Json.null [] (by decide) (by decide)⟩

/-! Claim C6: ingesting the same input twice is idempotent. -/

/-- The flush loop never raises when no location fails, and amounts to
folding the single-node write over the registry in order. -/
theorem flushRun_noFail (d : Disk) (ns : List Node) :
    flushRun (fun _ => false) d ns = (ns.foldl writeNode d, none) := by
  induction ns generalizing d with
  | nil => rfl
  | cons n rest ih => simp [flushRun, ih, List.foldl_cons]

/-- The document that the flush loop leaves at a location: the stripped
serialization of the last registered node stored there, if any. -/
def writtenDoc : List Node → String → Option Json
  | [], _ => none
  | n :: rest, loc =>
    match writtenDoc rest loc with
    | some v => some v
    | none => if loc = n.loc then some (Json.obj (prepFields n.fields)) else none

/-- Evaluation of the flush fold at one location: the last write wins, and a
location no node is stored at keeps its prior document. -/
theorem foldl_writeNode_eq (ns : List Node) (d : Disk) (loc : String) :
    (ns.foldl writeNode d) loc
      = match writtenDoc ns loc with
        | some v => some v
        | none => d loc := by
  induction ns generalizing d with
  | nil => rfl
  | cons n rest ih =>
    rw [List.foldl_cons, ih]
    cases hr : writtenDoc rest loc with
    | some w => simp [writtenDoc, hr]
    | none =>
      simp only [writtenDoc, hr]
      by_cases hl : loc = n.loc <;> simp [writeNode, hl]

/-- Every document the flush loop writes is the stripped serialization of
some registered node. -/
theorem writtenDoc_mem (ns : List Node) (loc : String) (v : Json)
    (h : writtenDoc ns loc = some v) :
    ∃ n ∈ ns, v = Json.obj (prepFields n.fields) := by
  induction ns with
  | nil => exact absurd h (by simp [writtenDoc])
  | cons n rest ih =>
    rw [writtenDoc] at h
    cases hr : writtenDoc rest loc with
    | some w =>
      rw [hr] at h
      obtain rfl : w = v := Option.some.inj h
      obtain ⟨m, hm, he⟩ := ih hr
      exact ⟨m, List.mem_cons_of_mem n hm, he⟩
    | none =>
      rw [hr] at h
      by_cases hl : loc = n.loc
      · rw [if_pos hl] at h
        exact ⟨n, List.mem_cons_self n rest, (Option.some.inj h).symm⟩
      · rw [if_neg hl] at h
        exact absurd h (by simp)

/-- The children list survives the pre-serialization preparation: setting
path and name and popping the internal keys never touches it. -/
theorem prepFields_children (fs : List (String × Json)) :
    lookupField (prepFields fs) "children" = lookupField fs "children" := by
  have hkeep : ("children" : String) ∉ keysToPop := by decide
  have hk1 : ∀ gs : List (String × Json),
      lookupField (gs.filter (fun kv => !(decide (kv.1 ∈ keysToPop)))) "children"
        = lookupField gs "children" :=
    fun gs => lookupField_filter_keep gs "children" hkeep
  have hk2 : ∀ (gs : List (String × Json)) (v : Json),
      lookupField (setField gs "path" v) "children" = lookupField gs "children" :=
    fun gs v => lookupField_setField_ne gs "path" "children" v (by decide)
  have hk3 : ∀ (gs : List (String × Json)) (v : Json),
      lookupField (setField gs "name" v) "children" = lookupField gs "children" :=
    fun gs v => lookupField_setField_ne gs "name" "children" v (by decide)
  unfold prepFields
  rcases hnp : lookupField fs "node_path" with _ | (_ | b | nn | p | xs | gs)
  case none => exact hk1 fs
  case str =>
    by_cases h1 : lookupField fs "type" ≠ some (Json.str "dataset") <;>
      by_cases h2 : lookupField fs "type" = some (Json.str "directory") <;>
        simp [h1, h2, hk1, hk2, hk3]
  all_goals exact hk1 fs

/-- The children list also survives orphan linking: every node of the
linked registry reads its children from some node of the registry before
linking. -/
theorem linkOrphans_children (cat : Json) (ns : List Node) (m : Node)
    (h : m ∈ linkOrphans cat ns) :
    ∃ t ∈ ns, lookupField m.fields "children" = lookupField t.fields "children" := by
  obtain ⟨t, ht, he⟩ := List.mem_map.mp h
  refine ⟨t, ht, ?_⟩
  by_cases ho : isOrphan t = true
  · rw [← he]
    simp only [ho, if_true]
    exact lookupField_setField_ne _ _ _ _ (by decide)
  · rw [← he]
    simp [ho]

/-- Duplicate-freedom of the children list depends only on the children
entry of the document. -/
theorem childrenDedup_congr (fs gs : List (String × Json))
    (h : lookupField fs "children" = lookupField gs "children") :
    childrenDedup (Json.obj fs) = childrenDedup (Json.obj gs) := by
  simp only [childrenDedup]
  rw [h]

/-- Closed form of the add action when no location fails: either the first
schema violation stops the run with the store untouched, or every
registered node is flush-folded over the store and the ok status is
yielded. -/
theorem addToCatalog_noFail (validate : Json → Bool)
    (translate : List Json → List Node) (cat : Json) (d : Disk)
    (lines : List Json) :
    addToCatalog validate translate cat (fun _ => false) d lines
      = match (processLines validate lines).fatal with
        | some (i, v) => ⟨d, some (AddError.schemaViolation i v), false⟩
        | none =>
          ⟨(runNodes validate translate cat lines).foldl writeNode d, none, true⟩ := by
  cases hfat : (processLines validate lines).fatal with
  | some iv =>
    obtain ⟨i, v⟩ := iv
    simp only [addToCatalog, hfat]
  | none => simp only [addToCatalog, hfat, flushRun_noFail]

/-- Running the add action twice over the same input: once against the
initial store, then again against the store the first run left behind. -/
def addTwice (validate : Json → Bool) (translate : List Json → List Node)
    (cat : Json) (d0 : Disk) (lines : List Json) : AddOutcome × AddOutcome :=
  let r1 := addToCatalog validate translate cat (fun _ => false) d0 lines
  (r1, addToCatalog validate translate cat (fun _ => false) r1.disk lines)

/-- C6: running the add action a second time with the same input over the
store produced by the first run changes nothing: every persisted document is
byte-identical to its state after the first run (json.dump of equal values
gives equal bytes), the outcome and status are the same, and, with
translation modelled from the spec as producing nodes whose children lists
are duplicate-free unions, every document the run persists has a
duplicate-free children list (any other document is untouched from the
initial store). -/
theorem c6_idempotent (validate : Json → Bool) (translate : List Json → List Node)
    (cat : Json) (d0 : Disk) (lines : List Json)
    (hdd : ∀ n ∈ translate (processLines validate lines).translatedVals,
        childrenDedup (Json.obj n.fields) = true) :
    (∀ loc, (addTwice validate translate cat d0 lines).2.disk loc
        = (addTwice validate translate cat d0 lines).1.disk loc) ∧
    (addTwice validate translate cat d0 lines).2.err
      = (addTwice validate translate cat d0 lines).1.err ∧
    (addTwice validate translate cat d0 lines).2.okStatus
      = (addTwice validate translate cat d0 lines).1.okStatus ∧
    (∀ loc v, (addTwice validate translate cat d0 lines).1.disk loc = some v →
        childrenDedup v = true ∨ d0 loc = some v) := by
  have hA := addToCatalog_noFail validate translate cat d0 lines
  cases hfat : (processLines validate lines).fatal with
  | some iv =>
    obtain ⟨i, v⟩ := iv
    rw [hfat] at hA
    simp only [addTwice, hA]
    refine ⟨fun _ => trivial, trivial, trivial, fun loc v h => Or.inr h⟩
  | none =>
    rw [hfat] at hA
    have hB := addToCatalog_noFail validate translate cat
      ((runNodes validate translate cat lines).foldl writeNode d0) lines
    rw [hfat] at hB
    simp only [addTwice, hA, hB]
    refine ⟨?_, trivial, trivial, ?_⟩
    · intro loc
      rw [foldl_writeNode_eq, foldl_writeNode_eq]
      cases hw : writtenDoc (runNodes validate translate cat lines) loc with
      | some w => rfl
      | none => rfl
    · intro loc v h
      rw [foldl_writeNode_eq] at h
      cases hw : writtenDoc (runNodes validate translate cat lines) loc with
      | some w =>
        rw [hw] at h
        obtain rfl : w = v := Option.some.inj h
        left
        obtain ⟨m, hm, rfl⟩ := writtenDoc_mem _ _ _ hw
        obtain ⟨t, ht, hch⟩ := linkOrphans_children cat _ m hm
        rw [childrenDedup_congr _ m.fields (prepFields_children m.fields)]
        rw [childrenDedup_congr m.fields t.fields hch]
        exact hdd t ht
      | none =>
        rw [hw] at h
        exact Or.inr h

/-- A spec-modelled translator for the C6 witness: one dataset node with a
duplicate-free children list. -/
def c6Translate : List Json → List Node :=
  fun _ => [⟨"locC", [("type", Json.str "dataset"),
                      ("children", Json.arr [Json.str "k1", Json.str "k2"])]⟩]

/-- C6, witnessed on a one-line input and a concrete translator. -/
theorem c6_idempotent_witness :
    (∀ n ∈ c6Translate (processLines acceptAll [Json.obj []]).translatedVals,
        childrenDedup (Json.obj n.fields) = true) ∧
    ((∀ loc, (addTwice acceptAll c6Translate Json.null emptyDisk [Json.obj []]).2.disk loc
        = (addTwice acceptAll c6Translate Json.null emptyDisk [Json.obj []]).1.disk loc) ∧
     (addTwice acceptAll c6Translate Json.null emptyDisk [Json.obj []]).2.err
       = (addTwice acceptAll c6Translate Json.null emptyDisk [Json.obj []]).1.err ∧
     (addTwice acceptAll c6Translate Json.null emptyDisk [Json.obj []]).2.okStatus
       = (addTwice acceptAll c6Translate Json.null emptyDisk [Json.obj []]).1.okStatus ∧
     (∀ loc v,
        (addTwice acceptAll c6Translate Json.null emptyDisk [Json.obj []]).1.disk loc
          = some v →
        childrenDedup v = true ∨ emptyDisk loc = some v)) :=
  ⟨by decide,
   c6_idempotent acceptAll c6Translate Json.null emptyDisk [Json.obj []] (by decide)⟩

end DataladCatalog
